import Mathlib

/-!
Verification of the JSRecon-Buddy detection and scan-orchestration engine.

Strings from the JavaScript source are modelled as `List Char`; JavaScript
numbers appearing as entropy thresholds are modelled as exact rationals where
they occur as rule data and compared, after coercion, against the real-valued
Shannon entropy.  Regular-expression objects are modelled by their `matchAll`
semantics, i.e. as functions from the scanned text to the list of matches they
produce; the regex engine itself is a host primitive.  The file contains all
definitions first, then the lemmas and theorems about them.
-/

namespace JSRecon

/-! ## Entropy scorer (`src/utils/entropy.js`, `shannonEntropy`) -/

/-- JavaScript `str.length`: the number of UTF-16 code units.  A code point
below `0x10000` occupies one unit, a supplementary-plane code point two (a
surrogate pair). -/
def utf16Length (s : List Char) : ℕ :=
  (s.map fun c => if c.toNat < 65536 then 1 else 2).sum

/-- `shannonEntropy` from `src/utils/entropy.js`: for a falsy (empty) input it
returns `0`; otherwise it accumulates `-p * log2 p` over the character
frequency table, where `p = count / len`.  The frequency loop
(`for (const char of str)`) iterates code points, but `len = str.length`
counts UTF-16 units, so for text containing supplementary-plane characters
the probabilities do not sum to 1. -/
noncomputable def shannonEntropy (s : List Char) : ℝ :=
  if s = [] then 0
  else -∑ c ∈ s.toFinset,
    ((s.count c : ℝ) / utf16Length s) * Real.logb 2 ((s.count c : ℝ) / utf16Length s)

/-! ## Entropy gates

`src/overlay/overlay.js` line 379: `isValidEntropy = (secret, ruleEntropy) =>
shannonEntropy(secret) >= ruleEntropy`, where `ruleEntropy` is
`rule.entropy ?? 0` (see `getPatterns`).

`src/background.js` lines 439-441 (passive scan): a match is skipped when
`rule.entropy && shannonEntropy(secret) < rule.entropy`; a missing or zero
(falsy) `entropy` field disables the gate. -/

/-- The on-demand scan's entropy validator (`overlay.js`, `isValidEntropy`). -/
def isValidEntropy (secret : List Char) (ruleEntropy : ℚ) : Prop :=
  shannonEntropy secret ≥ (ruleEntropy : ℝ)

/-- The passive scan's acceptance condition for a captured secret: the match is
kept unless `rule.entropy` is truthy and the entropy is below it. -/
def passiveEntropyAccepts (ruleEntropy : Option ℚ) (secret : List Char) : Prop :=
  match ruleEntropy with
  | none => True
  | some e => ¬(e ≠ 0 ∧ shannonEntropy secret < (e : ℝ))

/-! ## Domain classifier (`src/overlay/overlay.js`, `getDomainInfo` and
`isValidSubdomain`) -/

/-- `hostname.split(".")`: splitting a character list at every dot, keeping
empty segments, exactly as the JavaScript `String.prototype.split`. -/
def splitOnDot : List Char → List (List Char)
  | [] => [[]]
  | c :: rest =>
    if c = '.' then [] :: splitOnDot rest
    else
      match splitOnDot rest with
      | [] => [[c]]
      | g :: gs => (c :: g) :: gs

/-- `parts.join(".")`. -/
def joinDots : List (List Char) → List Char
  | [] => []
  | [g] => g
  | g :: gs => g ++ '.' :: joinDots gs

/-- The base-domain derivation of `getDomainInfo` (overlay.js lines
1090-1100): split on `.`; with at most two labels the hostname is its own
base; otherwise take the last two labels, or the last three when the
second-to-last label is one of the special second-level suffixes. -/
def getBaseDomain (hostname : List Char) : List Char :=
  let parts := splitOnDot hostname
  if parts.length ≤ 2 then hostname
  else
    let slds : List (List Char) :=
      ["co".data, "com".data, "gov".data, "org".data, "net".data, "ac".data, "edu".data]
    if parts.getD (parts.length - 2) [] ∈ slds then
      joinDots (parts.drop (parts.length - 3))
    else
      joinDots (parts.drop (parts.length - 2))

/-- `getDomainInfo` returns the page hostname together with its base domain. -/
def getDomainInfo (hostname : List Char) : List Char × List Char :=
  (hostname, getBaseDomain hostname)

/-- `isValidSubdomain` (overlay.js lines 374-378); `endsWith` is list-suffix
testing. -/
def isValidSubdomain (domain currentHostname baseDomain : List Char) : Bool :=
  domain == currentHostname ||
  ('.' :: currentHostname).isSuffixOf domain ||
  domain == baseDomain ||
  ('.' :: baseDomain).isSuffixOf domain

/-! ## Pre-scan text decoder (`src/overlay/overlay.js`, `decodeText`,
lines 500-517)

The decoder runs three passes: (1) rewrite `\\?u00hh` (case-insensitive, the
backslash optional) to `%hh`; (2) percent-decode every `%hh` via
`decodeURIComponent`, keeping the text when decoding throws (a lone byte
≥ 0x80 is invalid UTF-8); (3) HTML-entity-decode through a `<textarea>`.
The entity pass is modelled on the named entities `&amp; &lt; &gt; &quot;
&#39;`; like the DOM decode it is the identity on text without `&`. -/

def isHexDigitChar (c : Char) : Bool :=
  c.isDigit || ('a' ≤ c && c ≤ 'f') || ('A' ≤ c && c ≤ 'F')

def hexDigitVal (c : Char) : ℕ :=
  if c.isDigit then c.toNat - '0'.toNat
  else if 'a' ≤ c && c ≤ 'f' then c.toNat - 'a'.toNat + 10
  else c.toNat - 'A'.toNat + 10

/-- Pass 1 of `decodeText`: `str.replace(/\\?u00([0-9a-f]{2})/gi, "%$1")`,
scanning left to right, the backslash optional. -/
def standardizeU00 : List Char → List Char
  | '\\' :: u :: '0' :: '0' :: h1 :: h2 :: rest =>
    if (u = 'u' ∨ u = 'U') ∧ isHexDigitChar h1 ∧ isHexDigitChar h2 then
      '%' :: h1 :: h2 :: standardizeU00 rest
    else
      '\\' :: standardizeU00 (u :: '0' :: '0' :: h1 :: h2 :: rest)
  | u :: '0' :: '0' :: h1 :: h2 :: rest =>
    if (u = 'u' ∨ u = 'U') ∧ isHexDigitChar h1 ∧ isHexDigitChar h2 then
      '%' :: h1 :: h2 :: standardizeU00 rest
    else
      u :: standardizeU00 ('0' :: '0' :: h1 :: h2 :: rest)
  | c :: rest => c :: standardizeU00 rest
  | [] => []

/-- Pass 2 of `decodeText`: replace every `%hh` by `decodeURIComponent("%hh")`,
keeping the original three characters when decoding throws (which it does for
a lone byte outside the ASCII range). -/
def percentDecode : List Char → List Char
  | '%' :: h1 :: h2 :: rest =>
    if isHexDigitChar h1 ∧ isHexDigitChar h2 then
      let v := hexDigitVal h1 * 16 + hexDigitVal h2
      if v ≤ 0x7F then Char.ofNat v :: percentDecode rest
      else '%' :: h1 :: h2 :: percentDecode rest
    else '%' :: percentDecode (h1 :: h2 :: rest)
  | c :: rest => c :: percentDecode rest
  | [] => []

/-- Pass 3 of `decodeText`: the textarea-based HTML-entity decode, modelled on
the basic named entities; identity on text containing no ampersand. -/
def htmlEntityDecode : List Char → List Char
  | '&' :: 'a' :: 'm' :: 'p' :: ';' :: rest => '&' :: htmlEntityDecode rest
  | '&' :: 'l' :: 't' :: ';' :: rest => '<' :: htmlEntityDecode rest
  | '&' :: 'g' :: 't' :: ';' :: rest => '>' :: htmlEntityDecode rest
  | '&' :: 'q' :: 'u' :: 'o' :: 't' :: ';' :: rest => '"' :: htmlEntityDecode rest
  | '&' :: '#' :: '3' :: '9' :: ';' :: rest => '\'' :: htmlEntityDecode rest
  | c :: rest => c :: htmlEntityDecode rest
  | [] => []

/-- `decodeText` (overlay.js lines 500-517). -/
def decodeText (s : List Char) : List Char :=
  htmlEntityDecode (percentDecode (standardizeU00 s))

/-! ## Scan engine (`src/overlay/overlay.js`, `processScriptsAsync`,
lines 372-493)

A compiled regular expression is modelled by its `matchAll` behaviour: a
function from the scanned text to the list of matches, each match carrying its
capture groups (`match[i]`) and start offset (`match.index`). -/

/-- One element produced by `code.matchAll(rule.regex)`. -/
structure RegexMatch where
  groups : List (Option (List Char))
  index : ℕ
deriving DecidableEq

/-- An occurrence record as built in `processMatch` (overlay.js lines
420-425). -/
structure Occurrence where
  source : String
  ruleId : Option String
  index : ℕ
  secretLength : ℕ
deriving DecidableEq

/-- A compiled detector entry as produced by `getPatterns`
(`src/utils/patterns.js`): a nullable compiled pattern, the capture-group
index, the context-extraction mode and, for secret rules, the rule id and the
entropy threshold (`rule.entropy ?? 0`). -/
structure PatternRule where
  regex : Option (List Char → List RegexMatch)
  group : ℕ
  context : String := "snippet"
  ruleId : Option String := none
  ruleEntropy : ℚ := 0

/-- A per-category findings `Map` keyed by the trimmed value, in insertion
order. -/
abbrev FindingsMap : Type := List (List Char × List Occurrence)

/-- The overlay results object: category name to findings map. -/
abbrev Results : Type := List (String × FindingsMap)

/-- The compiled patterns object: category name to one or many detectors
(`Array.isArray(patterns[name]) ? patterns[name] : [patterns[name]]`). -/
abbrev Patterns : Type := List (String × List PatternRule)

/-- The retained `contentMap`: source identifier to decoded text. -/
abbrev ContentMap : Type := List (String × List Char)

/-- JavaScript `String.prototype.trim` on character lists. -/
def trimChars (s : List Char) : List Char :=
  ((s.dropWhile Char.isWhitespace).reverse.dropWhile Char.isWhitespace).reverse

/-- `isValidEndpoint = (endpoint) => !/^\/+$/.test(endpoint)` (overlay.js line
381): reject values made up solely of slashes. -/
def isValidEndpoint (endpoint : List Char) : Bool :=
  !(!endpoint.isEmpty && endpoint.all (fun c => c == '/'))

/-- `results[name].has/set/get(...).push(...)`: append the occurrence to the
existing key, or append a new key at the end (JavaScript `Map` preserves
insertion order). -/
def mapInsertOcc : FindingsMap → List Char → Occurrence → FindingsMap
  | [], k, occ => [(k, [occ])]
  | (k', occs) :: rest, k, occ =>
    if k' = k then (k', occs ++ [occ]) :: rest
    else (k', occs) :: mapInsertOcc rest k occ

/-- Apply an update to the findings map of one category. -/
def updateCategory (results : Results) (name : String) (f : FindingsMap → FindingsMap) :
    Results :=
  results.map fun e => if e.1 = name then (e.1, f e.2) else e

/-- The `validationMap` of `processMatch` (overlay.js lines 407-411):
Subdomains, Potential Secrets and Endpoints have validators, every other
category is unconditionally accepted. -/
def validationPasses (currentHostname baseDomain : List Char) (name : String)
    (rule : PatternRule) (finding : List Char) : Prop :=
  if name = "Subdomains" then isValidSubdomain finding currentHostname baseDomain = true
  else if name = "Potential Secrets" then isValidEntropy finding rule.ruleEntropy
  else if name = "Endpoints" then isValidEndpoint finding = true
  else True

section
open Classical

/-- `processMatch` (overlay.js lines 397-429): extract the configured capture
group, trim it, discard a falsy result (`match[group]?.trim()` is undefined or
the empty string exactly when the extracted value here is `[]`), run the
category validator, then record the occurrence under the trimmed value.  The
entropy validator compares real numbers, so that branch is classical. -/
noncomputable def processMatch (currentHostname baseDomain : List Char) (m : RegexMatch)
    (rule : PatternRule) (name : String) (source : String) (results : Results) : Results :=
  let finding := ((m.groups.getD rule.group none).map trimChars).getD []
  if finding = [] then results
  else if validationPasses currentHostname baseDomain name rule finding then
    updateCategory results name (fun fm =>
      mapInsertOcc fm finding
        { source := source, ruleId := rule.ruleId, index := m.index,
          secretLength := finding.length })
  else results

/-- `applyRulesToCode` (overlay.js lines 436-448): for every category, for
every rule with a non-null pattern, process all matches in order. -/
noncomputable def applyRulesToCode (currentHostname baseDomain : List Char)
    (patterns : Patterns) (code : List Char) (source : String) (results : Results) :
    Results :=
  patterns.foldl
    (fun results entry =>
      entry.2.foldl
        (fun results rule =>
          match rule.regex with
          | none => results
          | some matchAll =>
            (matchAll code).foldl
              (fun results m =>
                processMatch currentHostname baseDomain m rule entry.1 source results)
              results)
        results)
    results

end

/-- One gathered content source: `{ source, code }`. -/
structure ContentScript where
  source : String
  code : List Char
deriving DecidableEq

/-- JavaScript object assignment `contentMap[source] = decodedCode`. -/
def setContent (cm : ContentMap) (source : String) (code : List Char) : ContentMap :=
  if (cm.map Prod.fst).contains source then
    cm.map fun e => if e.1 = source then (e.1, code) else e
  else cm ++ [(source, code)]

/-- `processSingleScript` (overlay.js lines 454-467): skip a source with falsy
code, otherwise decode it, retain the decoded text in the content map, and
apply every rule to the decoded text. -/
noncomputable def processSingleScript (currentHostname baseDomain : List Char)
    (patterns : Patterns) (st : Results × ContentMap) (script : ContentScript) :
    Results × ContentMap :=
  if script.code = [] then st
  else
    let decodedCode := decodeText script.code
    (applyRulesToCode currentHostname baseDomain patterns decodedCode script.source st.1,
     setContent st.2 script.source decodedCode)

/-- The initial results object: one empty `Map` per pattern category. -/
def initResults (patterns : Patterns) : Results :=
  patterns.map fun e => (e.1, [])

/-- Deduplication invariant: within each category, the findings map has no two
entries for the same value. -/
def keysNodup (results : Results) : Prop :=
  ∀ e ∈ results, ((e.2 : FindingsMap).map Prod.fst).Nodup

/-- The synchronous content of `processScriptsAsync` (overlay.js lines
372-493), with the cooperative 5-source chunking flattened: the chunking only
schedules the same left-to-right iteration. -/
noncomputable def processScripts (hostname : List Char) (patterns : Patterns)
    (scripts : List ContentScript) : Results × ContentMap :=
  let info := getDomainInfo hostname
  scripts.foldl (processSingleScript info.1 info.2 patterns) (initResults patterns, [])

/-- `matchAll` semantics of a literal pattern: every non-overlapping, left to
right occurrence of the literal, with capture group 0 the whole match.  Used
to instantiate concrete scan scenarios. -/
def literalMatchesFrom (lit : List Char) : ℕ → ℕ → List Char → List RegexMatch
  | 0, _, _ => []
  | _ + 1, _, [] => []
  | fuel + 1, i, c :: rest =>
    if lit ≠ [] ∧ lit.isPrefixOf (c :: rest) then
      ⟨[some lit], i⟩ :: literalMatchesFrom lit fuel (i + lit.length) ((c :: rest).drop lit.length)
    else
      literalMatchesFrom lit fuel (i + 1) rest

def literalMatches (lit s : List Char) : List RegexMatch :=
  literalMatchesFrom lit (s.length + 1) 0 s

/-! ## Rule catalog (`src/content/rules.js`, `secretRules`)

Only the fields the claims are about are embedded: the rule id, the capture
group, the entropy threshold, and whether the declared regex literal carries
the `i` (ignore-case) flag.  The pattern bodies themselves are host regex
primitives. -/

structure CatalogRule where
  id : String
  group : ℕ
  entropy : Option ℚ
  ignoreCase : Bool
deriving DecidableEq

/-- A compiled Potential Secrets detector as built by the `getPatterns` loop
(`src/utils/patterns.js` lines 48-59): the declared flags are replaced by
`"gi"`, so every compiled secret detector is case-insensitive; the group
defaults to 0 and the threshold to 0. -/
structure CompiledSecretDetector where
  ruleId : String
  group : ℕ
  ruleEntropy : ℚ
  ignoreCase : Bool
deriving DecidableEq

/-- The rule catalog (`src/content/rules.js`): id, capture group
(defaulting to 0), entropy threshold (absent where the rule declares none),
and whether the declared regex literal carries the `i` flag. -/
/- The catalog literal is split in three parts to keep elaboration fast. -/
def secretRulesA : List CatalogRule := [
  ⟨"1password-secret-key", 0, some 3.8, false⟩,
  ⟨"1password-service-account-token", 0, some 4, false⟩,
  ⟨"adafruit-api-key", 1, none, true⟩,
  ⟨"adobe-client-id", 1, some 2, true⟩,
  ⟨"adobe-client-secret", 1, some 2, true⟩,
  ⟨"age-secret-key", 0, none, false⟩,
  ⟨"airtable-api-key", 1, none, true⟩,
  ⟨"algolia-api-key", 1, none, true⟩,
  ⟨"alibaba-access-key-id", 1, some 2, true⟩,
  ⟨"alibaba-secret-key", 1, some 2, true⟩,
  ⟨"anthropic-admin-api-key", 1, none, false⟩,
  ⟨"anthropic-api-key", 1, none, false⟩,
  ⟨"artifactory-api-key", 0, some 4.5, false⟩,
  ⟨"artifactory-reference-token", 0, some 4.5, false⟩,
  ⟨"asana-client-id", 1, none, true⟩,
  ⟨"asana-client-secret", 1, none, true⟩,
  ⟨"atlassian-api-token", 0, some 3.5, true⟩,
  ⟨"authress-service-client-access-key", 1, some 2, false⟩,
  ⟨"aws-access-token", 1, some 3, false⟩,
  ⟨"azure-ad-client-secret", 1, some 3, false⟩,
  ⟨"beamer-api-token", 1, none, true⟩,
  ⟨"bitbucket-client-id", 1, none, true⟩,
  ⟨"bitbucket-client-secret", 1, none, true⟩,
  ⟨"cisco-meraki-api-key", 1, some 3, true⟩,
  ⟨"clickhouse-cloud-api-secret-key", 1, some 3, false⟩,
  ⟨"clojars-api-token", 0, some 2, true⟩,
  ⟨"cloudflare-origin-ca-key", 1, some 2, false⟩,
  ⟨"databricks-api-token", 1, some 3, false⟩,
  ⟨"digitalocean-access-token", 1, some 3, false⟩,
  ⟨"digitalocean-pat", 1, some 3, false⟩,
  ⟨"digitalocean-refresh-token", 1, none, true⟩,
  ⟨"doppler-api-token", 0, some 2, true⟩,
  ⟨"dropbox-short-lived-api-token", 1, none, true⟩,
  ⟨"duffel-api-token", 0, some 2, true⟩,
  ⟨"dynatrace-api-token", 0, some 4, true⟩,
  ⟨"easypost-api-token", 0, some 2, true⟩,
  ⟨"easypost-test-api-token", 0, some 2, true⟩,
  ⟨"facebook-access-token", 1, some 3, true⟩,
  ⟨"facebook-page-access-token", 1, some 4, true⟩,
  ⟨"flyio-access-token", 1, some 4, false⟩,
  ⟨"frameio-api-token", 0, none, true⟩,
  ⟨"gcp-api-key", 1, some 4, false⟩,
  ⟨"generic-api-key", 1, some 4.3, true⟩,
  ⟨"github-app-token", 0, some 3, false⟩,
  ⟨"github-fine-grained-pat", 0, some 3, false⟩
]

def secretRulesB : List CatalogRule := [
  ⟨"github-oauth", 0, some 3, false⟩,
  ⟨"github-pat", 0, some 3, false⟩,
  ⟨"github-refresh-token", 0, some 3, false⟩,
  ⟨"gitlab-cicd-job-token", 0, some 3, false⟩,
  ⟨"gitlab-deploy-token", 0, some 3, false⟩,
  ⟨"gitlab-feature-flag-client-token", 0, some 3, false⟩,
  ⟨"gitlab-feed-token", 0, some 3, false⟩,
  ⟨"gitlab-incoming-mail-token", 0, some 3, false⟩,
  ⟨"gitlab-kubernetes-agent-token", 0, some 3, false⟩,
  ⟨"gitlab-oauth-app-secret", 0, some 3, false⟩,
  ⟨"gitlab-pat", 0, some 3, false⟩,
  ⟨"gitlab-pat-routable", 0, some 4, false⟩,
  ⟨"gitlab-ptt", 0, some 3, false⟩,
  ⟨"gitlab-rrt", 0, some 3, false⟩,
  ⟨"gitlab-runner-authentication-token", 0, some 3, false⟩,
  ⟨"gitlab-runner-authentication-token-routable", 0, some 4, false⟩,
  ⟨"gitlab-scim-token", 0, some 3, false⟩,
  ⟨"gitlab-session-cookie", 0, some 3, false⟩,
  ⟨"grafana-api-key", 1, some 3, true⟩,
  ⟨"grafana-cloud-api-token", 1, some 3, true⟩,
  ⟨"grafana-service-account-token", 1, some 3, true⟩,
  ⟨"harness-api-key", 0, none, false⟩,
  ⟨"hashicorp-tf-api-token", 0, some 3.5, false⟩,
  ⟨"heroku-api-key-v2", 1, some 4, false⟩,
  ⟨"huggingface-access-token", 1, some 2, true⟩,
  ⟨"huggingface-organization-api-token", 1, some 2, true⟩,
  ⟨"infracost-api-token", 1, some 3, false⟩,
  ⟨"intra42-client-secret", 1, some 3, true⟩,
  ⟨"jwt", 1, some 3, false⟩,
  ⟨"linear-api-key", 0, some 2, true⟩,
  ⟨"maxmind-license-key", 1, some 4, false⟩,
  ⟨"microsoft-teams-webhook", 1, none, false⟩,
  ⟨"notion-api-token", 1, some 4, false⟩,
  ⟨"npm-access-token", 1, some 2, true⟩,
  ⟨"octopus-deploy-api-key", 1, some 3, false⟩,
  ⟨"okta-access-token", 1, some 4, true⟩,
  ⟨"openai-api-key", 1, some 3, false⟩,
  ⟨"openshift-user-token", 1, some 3.5, false⟩,
  ⟨"perplexity-api-key", 1, some 4, false⟩,
  ⟨"planetscale-api-token", 1, some 3, true⟩,
  ⟨"planetscale-oauth-token", 1, some 3, true⟩,
  ⟨"planetscale-password", 1, some 3, true⟩,
  ⟨"postman-api-token", 1, some 3, true⟩,
  ⟨"prefect-api-token", 1, some 2, false⟩,
  ⟨"private-key", 0, none, true⟩
]

def secretRulesC : List CatalogRule := [
  ⟨"pulumi-api-token", 1, some 2, false⟩,
  ⟨"pypi-upload-token", 0, some 3, false⟩,
  ⟨"readme-api-token", 1, some 2, false⟩,
  ⟨"rubygems-api-token", 1, some 2, false⟩,
  ⟨"scalingo-api-token", 1, some 2, false⟩,
  ⟨"sendgrid-api-token", 1, some 2, true⟩,
  ⟨"sendinblue-api-token", 1, some 2, true⟩,
  ⟨"sentry-access-token", 1, some 3, true⟩,
  ⟨"sentry-org-token", 0, some 4.5, false⟩,
  ⟨"sentry-user-token", 1, some 3.5, false⟩,
  ⟨"settlemint-application-access-token", 1, some 3, false⟩,
  ⟨"settlemint-personal-access-token", 1, some 3, false⟩,
  ⟨"settlemint-service-access-token", 1, some 3, false⟩,
  ⟨"shippo-api-token", 1, some 2, false⟩,
  ⟨"shopify-access-token", 0, some 2, false⟩,
  ⟨"shopify-custom-access-token", 0, some 2, false⟩,
  ⟨"shopify-private-app-access-token", 0, some 2, false⟩,
  ⟨"shopify-shared-secret", 0, some 2, false⟩,
  ⟨"sidekiq-sensitive-url", 1, none, true⟩,
  ⟨"slack-app-token", 0, some 2, true⟩,
  ⟨"slack-bot-token", 0, some 3, false⟩,
  ⟨"slack-config-access-token", 0, some 2, true⟩,
  ⟨"slack-config-refresh-token", 0, some 2, true⟩,
  ⟨"slack-legacy-token", 0, some 2, false⟩,
  ⟨"slack-webhook-url", 0, none, false⟩,
  ⟨"sonar-api-token", 2, none, true⟩,
  ⟨"sourcegraph-access-token", 1, some 3, true⟩,
  ⟨"square-access-token", 1, some 2, false⟩,
  ⟨"stripe-access-token", 1, some 2, false⟩,
  ⟨"sumologic-access-id", 1, some 3, true⟩,
  ⟨"twilio-api-key", 0, some 3, false⟩,
  ⟨"typeform-api-token", 1, none, true⟩,
  ⟨"vault-batch-token", 1, some 4, false⟩,
  ⟨"vault-service-token", 1, some 4.3, false⟩,
  ⟨"azure-secret", 1, none, true⟩,
  ⟨"azure-client-id", 1, none, true⟩,
  ⟨"azure-client-secret", 1, none, true⟩,
  ⟨"azure-tenant-id", 1, none, true⟩,
  ⟨"rsa-private-key", 0, none, false⟩,
  ⟨"slack-webhook", 0, none, false⟩,
  ⟨"pem-certificate", 0, none, false⟩,
  ⟨"raw-bearer-token", 1, some 4, true⟩,
  ⟨"raw-basic-auth", 1, some 4, true⟩,
  ⟨"raw-aws-auth-header", 1, none, false⟩,
  ⟨"raw-oauth1-header", 0, none, true⟩
]

def secretRules : List CatalogRule := secretRulesA ++ secretRulesB ++ secretRulesC

/-- The `getPatterns` compilation loop for Potential Secrets
(`src/utils/patterns.js` lines 48-59): `new RegExp(rule.regex, "gi")` replaces
each rule's declared flags with `g` and `i`, `group := rule.group ?? 0`,
`ruleEntropy := rule.entropy ?? 0`. -/
def compileSecretDetectors : List CompiledSecretDetector :=
  secretRules.map fun r =>
    { ruleId := r.id, group := r.group, ruleEntropy := r.entropy.getD 0, ignoreCase := true }

/-! ## Passive scan (`src/background.js`, `runPassiveScan`, lines 402-471) -/

def MAX_CONTENT_SIZE_BYTES : ℕ := 4 * 1024 * 1024

/-- A rule as consumed by the passive scan: the declared pattern (with its own
flags) modelled by its `matchAll` behaviour. -/
structure PassiveRule where
  id : String
  regex : List Char → List RegexMatch
  group : ℕ := 0
  entropy : Option ℚ := none

/-- One entry pushed onto `findings` (background.js lines 443-449). -/
structure PassiveFinding where
  id : String
  secret : List Char
  source : String
  isSourceTooLarge : Bool
deriving DecidableEq

/-- `new Blob([content]).size`: the UTF-8 byte size. -/
def utf8Size (s : List Char) : ℕ := (s.map Char.utf8Size).sum

section
open Classical

/-- The matching loop of the passive scan (background.js lines 426-452): for
every truthy content source, record it in the content map unless it exceeds
the per-source byte budget, then push one finding per rule match, skipping a
match when the rule has a truthy entropy threshold the captured secret does
not reach. -/
noncomputable def runPassiveScanFindings (sources : List (String × List Char))
    (rules : List PassiveRule) : List PassiveFinding × ContentMap :=
  (sources.filter fun s => !s.2.isEmpty).foldl
    (fun st src =>
      let isContentTooLarge := decide (utf8Size src.2 > MAX_CONTENT_SIZE_BYTES)
      let cm := if isContentTooLarge then st.2 else setContent st.2 src.1 src.2
      let findings := rules.foldl
        (fun findings rule =>
          (rule.regex src.2).foldl
            (fun findings m =>
              let secret := (m.groups.getD rule.group none).getD []
              let keep := findings ++
                [PassiveFinding.mk rule.id secret src.1 isContentTooLarge]
              match rule.entropy with
              | none => keep
              | some e =>
                if e = 0 then keep
                else if shannonEntropy secret < (e : ℝ) then findings
                else keep)
            findings)
        st.1
      (findings, cm))
    ([], [])

end

/-! ## Concrete scan scenario used by the deduplication claim -/

/-- A well-formed value for the `frameio-api-token` rule (no entropy
threshold). -/
def demoSecret : List Char := "fio-u-".data ++ List.replicate 64 'a'

/-- Two content sources that both contain the same literal secret. -/
def demoSources : List (String × List Char) :=
  [("Inline Script #1", demoSecret), ("Inline Script #2", demoSecret)]

/-- The `frameio-api-token` rule with its pattern instantiated, on this input,
by the literal matcher. -/
def demoPassiveRule : PassiveRule :=
  { id := "frameio-api-token", regex := literalMatches demoSecret, group := 0, entropy := none }

/-- The same rule compiled for the on-demand engine (`rule.entropy ?? 0 = 0`,
`rule.group ?? 0 = 0`). -/
noncomputable def demoOverlayRule : PatternRule :=
  { regex := some (literalMatches demoSecret), group := 0, context := "snippet",
    ruleId := some "frameio-api-token", ruleEntropy := 0 }

noncomputable def demoPatterns : Patterns := [("Potential Secrets", [demoOverlayRule])]

def demoScripts : List ContentScript :=
  [⟨"Inline Script #1", demoSecret⟩, ⟨"Inline Script #2", demoSecret⟩]

/-! ## Scan coordinator (`src/background.js`, `triggerPassiveScan`, lines
329-384, and the `scansInProgress` map, lines 164-169)

`triggerPassiveScan` performs the `scansInProgress.has(tabId)` check at line
331, but only registers the scan promise at line 373, after the `await`s of
`chrome.tabs.get` (line 334) and `chrome.storage.session.get` (line 348).
Each call is therefore modelled as a task with two atomic phases separated by
a suspension point: the membership check, and the launch (create the scan
promise, register it in the map, invoke the scan engine).  The promise's
`finally` handler (lines 374-376) removes the map entry when the scan
settles, whether it succeeded or failed. -/

inductive TriggerPhase
  | checking
  | launching
  | launched
  | suppressed
deriving DecidableEq

structure TriggerTask where
  tabId : ℕ
  force : Bool
  phase : TriggerPhase
deriving DecidableEq

structure CoordState where
  scansInProgress : List ℕ
  engineInvocations : ℕ
deriving DecidableEq

/-- `Map.set` keyed by tab id: at most one tracked entry per tab. -/
def coordInsert (l : List ℕ) (t : ℕ) : List ℕ := if t ∈ l then l else t :: l

/-- Run one atomic phase of a `triggerPassiveScan` call. -/
def stepTrigger (st : CoordState) (t : TriggerTask) : CoordState × TriggerTask :=
  match t.phase with
  | .checking =>
    if t.tabId ∈ st.scansInProgress ∧ ¬t.force then (st, { t with phase := .suppressed })
    else (st, { t with phase := .launching })
  | .launching =>
    ({ scansInProgress := coordInsert st.scansInProgress t.tabId,
       engineInvocations := st.engineInvocations + 1 },
     { t with phase := .launched })
  | _ => (st, t)

/-- The `finally` cleanup: drop the tab's tracked scan, regardless of how the
scan ended. -/
def settleScan (st : CoordState) (tabId : ℕ) : CoordState :=
  { st with scansInProgress := st.scansInProgress.erase tabId }

inductive CoordEvent
  | phase (taskIdx : ℕ)
  | settle (tabId : ℕ)

def coordStep (s : CoordState × List TriggerTask) (ev : CoordEvent) :
    CoordState × List TriggerTask :=
  match ev with
  | .phase i =>
    match s.2.get? i with
    | none => s
    | some t =>
      let r := stepTrigger s.1 t
      (r.1, s.2.set i r.2)
  | .settle tab => (settleScan s.1 tab, s.2)

/-- Execute an interleaving of trigger phases and scan settlements. -/
def coordRun (tasks : List TriggerTask) (evs : List CoordEvent) :
    CoordState × List TriggerTask :=
  evs.foldl coordStep (⟨[], 0⟩, tasks)

/-- Two non-forced triggers for tab 7 arriving in rapid succession. -/
def rapidTasks : List TriggerTask :=
  [⟨7, false, .checking⟩, ⟨7, false, .checking⟩]

/-! ## Tab close versus in-flight scan (`src/background.js`: the
`chrome.tabs.onRemoved` listener, lines 216-224, and the tail of
`runPassiveScan`, lines 454-470)

Page keys are the strings `tabId + "|" + url`; since `"|"` cannot occur in a
decimal tab id, the listener's `key.startsWith(tabId + "|")` prefix test is
exactly equality on the tab component, so keys are modelled as
`(tabId, url)` pairs.  The `onRemoved` listener deletes the tab's entries
from `scannedPages`, removes those same keys from session storage, and drops
the tab's `scansInProgress` entry.  The tail of `runPassiveScan` writes the
completed entry to session storage and updates the action badge without
checking whether the tab still exists. -/

inductive StoredStatus
  | scanning
  | complete (findingsCount : ℕ)
deriving DecidableEq

inductive BgEffect
  | tabClosed (tabId : ℕ)
  | cacheWrite (tabId : ℕ) (url : String)
  | badgeUpdate (tabId : ℕ)
deriving DecidableEq

structure BgState where
  sessionStorage : List ((ℕ × String) × StoredStatus)
  scannedPages : List (ℕ × String)
  scansInProgress : List ℕ
  effects : List BgEffect
deriving DecidableEq

def emptyBgState : BgState := ⟨[], [], [], []⟩

/-- `chrome.storage.session.set`: JavaScript object-key assignment. -/
def setSession (store : List ((ℕ × String) × StoredStatus)) (k : ℕ × String)
    (v : StoredStatus) : List ((ℕ × String) × StoredStatus) :=
  if (store.map Prod.fst).contains k then
    store.map fun e => if e.1 = k then (e.1, v) else e
  else store ++ [(k, v)]

inductive BgEvent
  /-- `triggerPassiveScan` has registered an in-flight scan for the tab and
  `setIconAndState` stored the `scanning` status for its page key. -/
  | startScan (tabId : ℕ) (url : String)
  /-- The `chrome.tabs.onRemoved` listener (lines 216-224). -/
  | closeTab (tabId : ℕ)
  /-- The in-flight scan finishes: the tail of `runPassiveScan` (lines
  454-470) writes the completed entry and updates the badge, and the scan
  promise's `finally` clears the in-progress tracking. -/
  | completeScan (tabId : ℕ) (url : String) (findingsCount : ℕ)

def bgStep (s : BgState) (ev : BgEvent) : BgState :=
  match ev with
  | .startScan tab url =>
    { s with
      scansInProgress := coordInsert s.scansInProgress tab,
      sessionStorage := setSession s.sessionStorage (tab, url) .scanning }
  | .closeTab tab =>
    { s with
      sessionStorage :=
        s.sessionStorage.filter fun e => ¬(e.1.1 = tab ∧ e.1 ∈ s.scannedPages),
      scannedPages := s.scannedPages.filter fun k => k.1 ≠ tab,
      scansInProgress := s.scansInProgress.erase tab,
      effects := s.effects ++ [.tabClosed tab] }
  | .completeScan tab url n =>
    { s with
      sessionStorage := setSession s.sessionStorage (tab, url) (.complete n),
      scansInProgress := s.scansInProgress.erase tab,
      effects := s.effects ++ [.cacheWrite tab url, .badgeUpdate tab] }

def bgRun (evs : List BgEvent) : BgState := evs.foldl bgStep emptyBgState

/-! ## Result cache, read side (`src/overlay/overlay.js`,
`getCachedResults`, lines 73-98, and `CACHE_DURATION_MS`, line 21) -/

def CACHE_DURATION_MS : ℤ := 2 * 60 * 60 * 1000

/-- A stored cache entry: serialized results, content map (possibly absent in
old entries) and write timestamp. -/
structure StoredCache where
  results : List (String × FindingsMap)
  contentMap : Option ContentMap
  timestamp : ℤ
deriving DecidableEq

/-- `getCachedResults` at wall-clock time `now`: a missing wrapper or falsy
timestamp yields null; a missing `contentMap` is replaced by an empty one; the
entry is treated as absent when `now - timestamp > CACHE_DURATION_MS`. -/
def getCachedResults (stored : Option StoredCache) (now : ℤ) : Option StoredCache :=
  match stored with
  | none => none
  | some cd =>
    if cd.timestamp = 0 then none
    else if now - cd.timestamp > CACHE_DURATION_MS then none
    else some { cd with contentMap := some (cd.contentMap.getD []) }

/-! ## Result cache, write side

`src/overlay/overlay.js`, `setCachedResults`, lines 107-139, and
`src/background.js`, the storage write of `runPassiveScan`, lines 454-468.
The storage primitive is a parameter: `none` means the write succeeded,
`some msg` that it rejected with an error whose message is `msg`. -/

def MAX_CACHE_SIZE_BYTES : ℕ := 30 * 1024 * 1024

/-- The on-demand cache entry `{ results, contentMap, timestamp }`. -/
structure DataToCache where
  results : List (String × FindingsMap)
  contentMap : ContentMap
  timestamp : ℤ
deriving DecidableEq

/-- What `setCachedResults` did: the single write it issued, and the logged
warning when that write failed.  The function always returns; the lone
`storage.local.set` sits inside try/catch. -/
structure OverlayWriteTrace where
  attempts : List DataToCache
  logged : Option String
deriving DecidableEq

/-- `setCachedResults` (overlay.js lines 107-139): estimate the serialized
size; above the budget, cache the results with an empty `contentMap`
instead; then issue the one guarded write. -/
def setCachedResults (sizeOf : DataToCache → ℕ) (writeOk : DataToCache → Option String)
    (results : List (String × FindingsMap)) (contentMap : ContentMap) (now : ℤ) :
    OverlayWriteTrace :=
  let dataToCache := DataToCache.mk results contentMap now
  let dataToCache :=
    if sizeOf dataToCache > MAX_CACHE_SIZE_BYTES then DataToCache.mk results [] now
    else dataToCache
  { attempts := [dataToCache], logged := writeOk dataToCache }

/-- A passive-scan session entry `{ status, results, contentMap }`. -/
structure SessionEntry where
  status : String
  results : List PassiveFinding
  contentMap : ContentMap
deriving DecidableEq

/-- `String.prototype.includes`: substring containment. -/
def containsSub (needle : List Char) : List Char → Bool
  | [] => needle.isEmpty
  | c :: rest => needle.isPrefixOf (c :: rest) || containsSub needle rest

/-- `error.message.toLowerCase().includes("quota")`. -/
def containsQuota (msg : String) : Bool :=
  containsSub "quota".data (msg.data.map Char.toLower)

/-- What the passive-scan storage write did: the writes issued in order, and
the error, if any, that escaped uncaught. -/
structure PersistTrace where
  attempts : List SessionEntry
  thrown : Option String
deriving DecidableEq

/-- The storage write and quota fallback at the end of the passive scan
(background.js lines 454-468): try the full entry; on an error whose message
contains "quota", retry once with an empty `contentMap` — that second write
is not guarded, so its failure escapes; any non-quota error is swallowed. -/
def persistPassiveResult (writeOk : SessionEntry → Option String)
    (findings : List PassiveFinding) (contentMap : ContentMap) : PersistTrace :=
  let full := SessionEntry.mk "complete" findings contentMap
  match writeOk full with
  | none => ⟨[full], none⟩
  | some msg =>
    if containsQuota msg then
      let stripped := SessionEntry.mk "complete" findings []
      match writeOk stripped with
      | none => ⟨[full, stripped], none⟩
      | some msg2 => ⟨[full, stripped], some msg2⟩
    else ⟨[full], none⟩

end JSRecon

namespace JSRecon

/-! ## Theorems -/

theorem shannonEntropy_nil : shannonEntropy [] = 0 := by
  simp [shannonEntropy]

theorem length_le_utf16Length (s : List Char) : s.length ≤ utf16Length s := by
  induction s with
  | nil => simp [utf16Length]
  | cons c rest ih =>
    simp only [utf16Length, List.map_cons, List.sum_cons, List.length_cons] at *
    have h1 : 1 ≤ (if c.toNat < 65536 then 1 else 2) := by split <;> omega
    omega

theorem logb_half : Real.logb 2 (2⁻¹ : ℝ) = -1 := by
  rw [Real.logb_inv, Real.logb_self_eq_one one_lt_two]

/-- Every per-character term `p * log2 p` with `0 ≤ p ≤ 1` is nonpositive, so
the accumulated entropy is nonnegative (each code point's count is at most
the code-point length, which is at most the UTF-16 length). -/
theorem shannonEntropy_nonneg (s : List Char) : 0 ≤ shannonEntropy s := by
  unfold shannonEntropy
  split
  · exact le_refl 0
  · rename_i hs
    rw [le_neg, neg_zero]
    apply Finset.sum_nonpos
    intro c hc
    have hlen : 0 < (utf16Length s : ℝ) := by
      have h1 : 0 < s.length := List.length_pos.mpr hs
      have h2 : 0 < utf16Length s := lt_of_lt_of_le h1 (length_le_utf16Length s)
      exact_mod_cast h2
    have hcount : 0 ≤ ((s.count c : ℝ) / utf16Length s) := by positivity
    have hle : ((s.count c : ℝ) / utf16Length s) ≤ 1 := by
      rw [div_le_one hlen]
      have := le_trans (s.count_le_length c) (length_le_utf16Length s)
      exact_mod_cast this
    have hlog : Real.logb 2 ((s.count c : ℝ) / utf16Length s) ≤ 0 :=
      Real.logb_nonpos one_lt_two hcount hle
    exact mul_nonpos_of_nonneg_of_nonpos hcount hlog

/-- A repeated character scores 0 exactly when the character occupies one
UTF-16 unit: then every probability is `n / n = 1`. -/
theorem shannonEntropy_replicate_bmp (c : Char) (n : ℕ) (hc : c.toNat < 65536) :
    shannonEntropy (List.replicate n c) = 0 := by
  rcases Nat.eq_zero_or_pos n with hn | hn
  · subst hn; simp [shannonEntropy]
  · have hn0 : n ≠ 0 := hn.ne'
    unfold shannonEntropy
    rw [if_neg (by simp [hn0]), List.toFinset_replicate_of_ne_zero hn0]
    have hu : utf16Length (List.replicate n c) = n := by
      simp [utf16Length, List.map_replicate, if_pos hc, List.sum_replicate, smul_eq_mul]
    have hnr : ((n : ℝ)) ≠ 0 := by exact_mod_cast hn0
    simp [List.count_replicate, hu, div_self hnr]

/-- A repeated supplementary-plane character scores 1/2, not 0: the
denominator is the UTF-16 length `2n` while the code point's count is `n`. -/
theorem shannonEntropy_replicate_astral (c : Char) (n : ℕ) (hc : ¬c.toNat < 65536)
    (hn : n ≠ 0) : shannonEntropy (List.replicate n c) = 1 / 2 := by
  unfold shannonEntropy
  rw [if_neg (by simp [hn]), List.toFinset_replicate_of_ne_zero hn,
    Finset.sum_singleton]
  have hu : utf16Length (List.replicate n c) = 2 * n := by
    simp only [utf16Length, List.map_replicate, if_neg hc, List.sum_replicate,
      smul_eq_mul]
    ring
  have hnr : ((n : ℝ)) ≠ 0 := by exact_mod_cast hn
  have hcnt : (List.replicate n c).count c = n := by
    simp [List.count_replicate]
  have hp : ((List.replicate n c).count c : ℝ) / utf16Length (List.replicate n c)
      = 2⁻¹ := by
    rw [hu, hcnt]
    push_cast
    field_simp
    ring
  rw [hp, logb_half]
  norm_num

theorem shannonEntropy_perm {s t : List Char} (h : s.Perm t) :
    shannonEntropy s = shannonEntropy t := by
  have hfin : s.toFinset = t.toFinset := by
    ext x; simp [List.mem_toFinset, h.mem_iff]
  have hu16 : utf16Length s = utf16Length t :=
    List.Perm.sum_eq (List.Perm.map _ h)
  have hcount : ∀ c, s.count c = t.count c := fun c => h.count_eq c
  by_cases hs : s = []
  · have ht : t = [] := List.Perm.eq_nil ((hs ▸ h).symm)
    rw [hs, ht]
  · have ht : t ≠ [] := fun htt => hs (List.Perm.eq_nil (htt ▸ h))
    simp only [shannonEntropy, if_neg hs, if_neg ht, hu16, hfin, hcount]

/-- C1 counterexample: for a repeated supplementary-plane character the
program returns 1/2, not 0 — `str.length` counts UTF-16 units (4 for two
copies of U+1D482) while the frequency loop counts code points (2), so the
probability is 1/2 instead of 1. -/
theorem C1_counterexample :
    shannonEntropy (List.replicate 2 (Char.ofNat 119938)) = 1 / 2 ∧
    shannonEntropy (List.replicate 2 (Char.ofNat 119938)) ≠ 0 := by
  have h := shannonEntropy_replicate_astral (Char.ofNat 119938) 2 (by decide) (by decide)
  exact ⟨h, by rw [h]; norm_num⟩

/-- C1 (amended): `shannonEntropy` returns 0 on the empty (falsy) string,
0 on a string of one repeated character provided that character occupies a
single UTF-16 unit (for a repeated supplementary-plane character it returns
1/2 instead, because the denominator is `str.length` in UTF-16 units while
frequencies count code points), exactly 1 on the two-symbol equiprobable
string "ab", and the same value on any two permuted strings. -/
theorem C1_shannonEntropy_correct :
    shannonEntropy [] = 0 ∧
    (∀ (c : Char) (n : ℕ), c.toNat < 65536 → shannonEntropy (List.replicate n c) = 0) ∧
    shannonEntropy ['a', 'b'] = 1 ∧
    (∀ s t : List Char, s.Perm t → shannonEntropy s = shannonEntropy t) := by
  refine ⟨shannonEntropy_nil, shannonEntropy_replicate_bmp, ?_,
    fun s t h => shannonEntropy_perm h⟩
  unfold shannonEntropy
  rw [if_neg (by simp)]
  have hfin : (['a', 'b'] : List Char).toFinset = {'a', 'b'} := by decide
  rw [hfin]
  have hab : ('a' : Char) ∉ ({'b'} : Finset Char) := by decide
  rw [Finset.sum_insert hab, Finset.sum_singleton]
  have hca : (['a', 'b'] : List Char).count 'a' = 1 := by decide
  have hcb : (['a', 'b'] : List Char).count 'b' = 1 := by decide
  have hlen : utf16Length ['a', 'b'] = 2 := by decide
  rw [hca, hcb, hlen]
  have h12 : ((1 : ℕ) : ℝ) / ((2 : ℕ) : ℝ) = 2⁻¹ := by norm_num
  rw [h12, logb_half]
  norm_num

/-- Witness for C1 at a concrete repeated BMP character and a concrete pair
of permuted strings. -/
theorem C1_shannonEntropy_correct_witness :
    shannonEntropy (List.replicate 4 'a') = 0 ∧
    shannonEntropy ['a', 'b'] = shannonEntropy ['b', 'a'] :=
  ⟨C1_shannonEntropy_correct.2.1 'a' 4 (by decide),
   C1_shannonEntropy_correct.2.2.2 ['a', 'b'] ['b', 'a'] (List.Perm.swap 'b' 'a' [])⟩

/-- C2: a captured candidate is accepted by the entropy gate exactly when the
Shannon entropy of the captured substring is at least the rule's threshold;
a missing threshold or a threshold of 0 accepts every candidate (entropy is
never negative). -/
theorem C2_entropy_gating :
    (∀ (e : ℚ) (s : List Char),
       passiveEntropyAccepts (some e) s ↔ shannonEntropy s ≥ (e : ℝ)) ∧
    (∀ s : List Char, passiveEntropyAccepts none s) ∧
    (∀ s : List Char, passiveEntropyAccepts (some 0) s) ∧
    (∀ s : List Char, isValidEntropy s 0) := by
  have hnn : ∀ s : List Char, 0 ≤ shannonEntropy s := shannonEntropy_nonneg
  refine ⟨?_, fun s => trivial, ?_, ?_⟩
  · intro e s
    by_cases he : e = 0
    · subst he
      simp only [passiveEntropyAccepts, ne_eq, not_true_eq_false, false_and, not_false_eq_true,
        true_iff, ge_iff_le, Rat.cast_zero]
      exact hnn s
    · simp only [passiveEntropyAccepts, ne_eq, he, not_false_eq_true, true_and, not_lt, ge_iff_le]
  · intro s
    simp only [passiveEntropyAccepts, ne_eq, not_true_eq_false, false_and, not_false_eq_true]
  · intro s
    simpa [isValidEntropy] using hnn s

/-- C4: the domain classifier accepts a candidate exactly when it equals the
current hostname, ends with "." plus the current hostname, equals the base
domain, or ends with "." plus the base domain; the base domain keeps the whole
hostname for at most two labels, else the last two labels, or the last three
when the second-to-last label is a special second-level suffix; concretely,
for current hostname app.example.com the candidates api.example.com and
example.com are accepted while evil.com is rejected. -/
theorem C4_domain_classifier :
    (∀ c h b : List Char,
       isValidSubdomain c h b = true ↔
         (c = h ∨ ('.' :: h) <:+ c ∨ c = b ∨ ('.' :: b) <:+ c)) ∧
    getBaseDomain "app.example.com".data = "example.com".data ∧
    getBaseDomain "example.com".data = "example.com".data ∧
    getBaseDomain "shop.example.co.uk".data = "example.co.uk".data ∧
    getDomainInfo "app.example.com".data = ("app.example.com".data, "example.com".data) ∧
    isValidSubdomain "api.example.com".data "app.example.com".data "example.com".data = true ∧
    isValidSubdomain "example.com".data "app.example.com".data "example.com".data = true ∧
    isValidSubdomain "evil.com".data "app.example.com".data "example.com".data = false := by
  refine ⟨?_, by decide, by decide, by decide, by decide, by decide, by decide, by decide⟩
  intro c h b
  simp only [isValidSubdomain, List.isSuffixOf, Bool.or_eq_true, beq_iff_eq,
    ← List.reverse_cons, List.reverse_prefix, List.isPrefixOf_iff_prefix]
  tauto

/-- C10: because the backslash in the escape pattern is optional, the decoder
rewrites the bare text `u0041` — which contains no backslash escape and no
percent-encoded byte — to `A`, so it is not the identity even on such inputs;
the scan engine then matches patterns and records offsets against this
rewritten text (see `processSingleScript`, which scans and retains
`decodeText code`). -/
theorem C10_decodeText_not_identity :
    ('\\' ∉ "myu0041var".data ∧ '%' ∉ "myu0041var".data) ∧
    decodeText "myu0041var".data = "myAvar".data ∧
    decodeText "myu0041var".data ≠ "myu0041var".data ∧
    (∀ (hostname : List Char) (patterns : Patterns) (src : String) (code : List Char),
       (processScripts hostname patterns [⟨src, code⟩]).2 =
         if code = [] then [] else [(src, decodeText code)]) := by
  refine ⟨⟨by decide, by decide⟩, by decide, by decide, ?_⟩
  intro hostname patterns src code
  by_cases hc : code = []
  · simp [processScripts, processSingleScript, hc]
  · simp [processScripts, processSingleScript, hc, setContent]

/-- C5 counterexample: the claim says every catalog rule is applied
case-insensitively, but the passive scan applies each rule's declared regex
(with its own flags), and the declared `gcp-api-key` pattern — like 76 other
rules — carries no `i` flag. -/
theorem C5_counterexample :
    ((secretRules.find? fun r => r.id == "gcp-api-key").map fun r => r.ignoreCase) =
      some false ∧
    secretRules.all (fun r => r.ignoreCase) = false := by
  constructor
  · decide
  · decide

/-- C5 (amended): the on-demand scan compiles every secret rule with the `gi`
flags, so there matching is case-insensitive for all rules; the passive scan
uses each rule's declared flags, and some declared rules (e.g. `gcp-api-key`)
are case-sensitive. -/
theorem C5_case_insensitivity :
    (∀ d ∈ compileSecretDetectors, d.ignoreCase = true) ∧
    (∃ r ∈ secretRules, r.ignoreCase = false) := by
  constructor
  · intro d hd
    simp only [compileSecretDetectors, List.mem_map] at hd
    obtain ⟨r, _, rfl⟩ := hd
    rfl
  · exact ⟨⟨"gcp-api-key", 1, some 4, false⟩, by decide, rfl⟩

/-- Witness for C5 at the compiled `gcp-api-key` detector. -/
theorem C5_case_insensitivity_witness :
    (CompiledSecretDetector.mk "gcp-api-key" 1 4 true).ignoreCase = true :=
  C5_case_insensitivity.1 (CompiledSecretDetector.mk "gcp-api-key" 1 4 true) (by decide)

/-- C6: the single-flight check and the registration of the scan promise are
separated by suspension points (`await chrome.tabs.get`,
`await chrome.storage.session.get`), so two rapid non-forced triggers for the
same tab that both pass the check before either registers invoke the scan
engine twice — the claim's "exactly one invocation" fails on that
interleaving.  When the second trigger's check runs after the first has
registered, it is suppressed as intended, and settling clears the per-tab
tracking. -/
theorem C6_single_flight_race :
    (coordRun rapidTasks
        [.phase 0, .phase 1, .phase 0, .phase 1]).1.engineInvocations = 2 ∧
    (coordRun rapidTasks [.phase 0, .phase 0, .phase 1]).1.engineInvocations = 1 ∧
    (coordRun rapidTasks [.phase 0, .phase 0, .phase 1]).2.get? 1 =
      some ⟨7, false, .suppressed⟩ ∧
    (coordRun rapidTasks [.phase 0, .phase 0, .settle 7]).1.scansInProgress = [] := by
  refine ⟨by decide, by decide, by decide, by decide⟩

/-- C7: a scan still in flight when its tab is closed is not cancelled: when
it completes, the tail of `runPassiveScan` writes the session-storage entry
for the closed tab's page key and updates the badge — both after the close
event — and the completed entry survives in storage even though the close
handler had run. -/
theorem C7_close_race :
    (bgRun [.startScan 7 "u", .closeTab 7, .completeScan 7 "u" 3]).sessionStorage =
      [((7, "u"), .complete 3)] ∧
    (bgRun [.startScan 7 "u", .closeTab 7, .completeScan 7 "u" 3]).effects =
      [.tabClosed 7, .cacheWrite 7 "u", .badgeUpdate 7] := by
  refine ⟨by decide, by decide⟩

/-- C8: the cache TTL (2 hours) is enforced against wall-clock time at read
time: an entry written at `T` is returned at `T + TTL - 1` ms (with a missing
`contentMap` defaulted to empty) and treated as absent at `T + TTL + 1` ms. -/
theorem C8_cache_ttl (cd : StoredCache) (T : ℤ) (hT : cd.timestamp = T) (h0 : T ≠ 0) :
    CACHE_DURATION_MS = 7200000 ∧
    getCachedResults (some cd) (T + CACHE_DURATION_MS - 1) =
      some { cd with contentMap := some (cd.contentMap.getD []) } ∧
    getCachedResults (some cd) (T + CACHE_DURATION_MS + 1) = none := by
  subst hT
  refine ⟨rfl, ?_, ?_⟩
  · simp only [getCachedResults]
    rw [if_neg h0, if_neg (by omega)]
  · simp only [getCachedResults]
    rw [if_neg h0, if_pos (by omega)]

/-- Witness for C8 at a concrete entry written at time 1000. -/
theorem C8_cache_ttl_witness :
    getCachedResults (some ⟨[], none, 1000⟩) (1000 + CACHE_DURATION_MS - 1) =
      some ⟨[], some [], 1000⟩ ∧
    getCachedResults (some ⟨[], none, 1000⟩) (1000 + CACHE_DURATION_MS + 1) = none := by
  have h := C8_cache_ttl ⟨[], none, 1000⟩ 1000 rfl (by decide)
  exact ⟨h.2.1, h.2.2⟩

/-- C9 counterexample: when the passive scan's first write fails with a quota
error and the retried smaller write fails too, the error escapes uncaught —
the write operation throws instead of logging and dropping. -/
theorem C9_counterexample :
    (persistPassiveResult (fun _ => some "Quota exceeded") [] [("a", ['x'])]).thrown =
      some "Quota exceeded" ∧
    (persistPassiveResult (fun _ => some "Quota exceeded") [] [("a", ['x'])]).attempts =
      [⟨"complete", [], [("a", ['x'])]⟩, ⟨"complete", [], []⟩] := by
  refine ⟨by decide, by decide⟩

/-- C9 (amended): in the on-demand path an entry whose estimated size exceeds
the 30 MB budget is written once with an empty `contentMap` and unchanged
results, and exactly one guarded write is ever issued (its failure is logged,
not thrown); in the passive path a first write failing with a quota-message
error is retried once with an empty `contentMap` and unchanged findings, and
the outcome of that unguarded retry — including its failure — propagates. -/
theorem C9_quota_fallback :
    (∀ (sizeOf : DataToCache → ℕ) (writeOk : DataToCache → Option String)
       (r : List (String × FindingsMap)) (cm : ContentMap) (now : ℤ),
       sizeOf (DataToCache.mk r cm now) > MAX_CACHE_SIZE_BYTES →
       setCachedResults sizeOf writeOk r cm now =
         { attempts := [DataToCache.mk r [] now],
           logged := writeOk (DataToCache.mk r [] now) }) ∧
    (∀ (sizeOf : DataToCache → ℕ) (writeOk : DataToCache → Option String)
       (r : List (String × FindingsMap)) (cm : ContentMap) (now : ℤ),
       (setCachedResults sizeOf writeOk r cm now).attempts.length = 1) ∧
    (∀ (writeOk : SessionEntry → Option String) (f : List PassiveFinding)
       (cm : ContentMap) (msg : String),
       writeOk (SessionEntry.mk "complete" f cm) = some msg →
       containsQuota msg = true →
       persistPassiveResult writeOk f cm =
         { attempts := [SessionEntry.mk "complete" f cm, SessionEntry.mk "complete" f []],
           thrown := writeOk (SessionEntry.mk "complete" f []) }) := by
  refine ⟨?_, ?_, ?_⟩
  · intro sizeOf writeOk r cm now hsz
    simp only [setCachedResults]
    rw [if_pos hsz]
  · intro sizeOf writeOk r cm now
    rfl
  · intro writeOk f cm msg hw hq
    simp only [persistPassiveResult]
    rw [hw]
    simp only [hq, if_true]
    cases hws : writeOk (SessionEntry.mk "complete" f []) <;> simp [hws]

theorem foldl_preserve {α β : Type _} (P : α → Prop) (f : α → β → α)
    (hf : ∀ a b, P a → P (f a b)) : ∀ (l : List β) (a : α), P a → P (l.foldl f a)
  | [], _, ha => ha
  | b :: l, a, ha => foldl_preserve P f hf l (f a b) (hf a b ha)

theorem mapInsertOcc_keys (fm : FindingsMap) (k : List Char) (occ : Occurrence) :
    (mapInsertOcc fm k occ).map Prod.fst =
      if k ∈ fm.map Prod.fst then fm.map Prod.fst else fm.map Prod.fst ++ [k] := by
  induction fm with
  | nil => simp [mapInsertOcc]
  | cons e rest ih =>
    obtain ⟨k', occs⟩ := e
    by_cases hk : k' = k
    · subst hk
      simp [mapInsertOcc]
    · simp only [mapInsertOcc, if_neg hk, List.map_cons, ih, List.mem_cons]
      by_cases hm : k ∈ rest.map Prod.fst
      · simp [hm, Ne.symm hk]
      · simp [hm, Ne.symm hk]

theorem mapInsertOcc_nodup {fm : FindingsMap} (h : (fm.map Prod.fst).Nodup)
    (k : List Char) (occ : Occurrence) :
    ((mapInsertOcc fm k occ).map Prod.fst).Nodup := by
  rw [mapInsertOcc_keys]
  by_cases hm : k ∈ fm.map Prod.fst
  · simpa [hm] using h
  · simp only [hm, if_false]
    refine List.Nodup.append h (List.nodup_singleton k) ?_
    intro a ha hb
    rw [List.mem_singleton] at hb
    exact hm (hb ▸ ha)

theorem processMatch_keysNodup (h b : List Char) (m : RegexMatch) (rule : PatternRule)
    (name : String) (source : String) {results : Results} (hr : keysNodup results) :
    keysNodup (processMatch h b m rule name source results) := by
  simp only [processMatch]
  split
  · exact hr
  · split
    · intro e he
      simp only [updateCategory, List.mem_map] at he
      obtain ⟨e₀, he₀, rfl⟩ := he
      by_cases hn : e₀.1 = name
      · rw [if_pos hn]
        exact mapInsertOcc_nodup (hr e₀ he₀) _ _
      · rw [if_neg hn]
        exact hr e₀ he₀
    · exact hr

theorem applyRulesToCode_keysNodup (h b : List Char) (patterns : Patterns)
    (code : List Char) (source : String) {results : Results} (hr : keysNodup results) :
    keysNodup (applyRulesToCode h b patterns code source results) := by
  unfold applyRulesToCode
  refine foldl_preserve keysNodup _ ?_ patterns results hr
  intro res entry hres
  refine foldl_preserve keysNodup _ ?_ entry.2 res hres
  intro res rule hres
  cases hreg : rule.regex with
  | none => simpa only [hreg] using hres
  | some matchAll =>
    simp only [hreg]
    exact foldl_preserve keysNodup _
      (fun r m hnd => processMatch_keysNodup h b m rule entry.1 source hnd)
      (matchAll code) res hres

theorem initResults_keysNodup (patterns : Patterns) : keysNodup (initResults patterns) := by
  intro e he
  simp only [initResults, List.mem_map] at he
  obtain ⟨x, _, rfl⟩ := he
  simp

theorem processScripts_keysNodup (hostname : List Char) (patterns : Patterns)
    (scripts : List ContentScript) :
    keysNodup (processScripts hostname patterns scripts).1 := by
  have hstep : ∀ (st : Results × ContentMap) (script : ContentScript),
      keysNodup st.1 →
      keysNodup ((processSingleScript (getDomainInfo hostname).1
        (getDomainInfo hostname).2 patterns st script).1) := by
    intro st script hst
    unfold processSingleScript
    split
    · exact hst
    · exact applyRulesToCode_keysNodup _ _ _ _ _ hst
  simp only [processScripts]
  exact foldl_preserve (fun st : Results × ContentMap => keysNodup st.1) _ hstep scripts
    (initResults patterns, []) (initResults_keysNodup patterns)

theorem demo_decode : decodeText demoSecret = demoSecret := by decide

theorem demo_matches :
    literalMatches demoSecret demoSecret = [⟨[some demoSecret], 0⟩] := by decide

theorem demo_gate (h b : List Char) :
    validationPasses h b "Potential Secrets" demoOverlayRule demoSecret := by
  unfold validationPasses
  rw [if_neg (by decide), if_pos rfl]
  show isValidEntropy demoSecret demoOverlayRule.ruleEntropy
  have : demoOverlayRule.ruleEntropy = 0 := rfl
  rw [this]
  simpa [isValidEntropy] using shannonEntropy_nonneg demoSecret

theorem demo_processMatch (h b : List Char) (src : String) (results : Results) :
    processMatch h b ⟨[some demoSecret], 0⟩ demoOverlayRule "Potential Secrets" src results =
      updateCategory results "Potential Secrets" (fun fm =>
        mapInsertOcc fm demoSecret
          ⟨src, some "frameio-api-token", 0, demoSecret.length⟩) := by
  have hfind : (Option.map trimChars
      (([some demoSecret] : List (Option (List Char))).getD
        demoOverlayRule.group none)).getD [] = demoSecret := by decide
  have hne : ¬(demoSecret = []) := by decide
  classical
  simp only [processMatch, hfind, if_neg hne, if_pos (demo_gate h b)]
  rfl

theorem demo_step (h b : List Char) (st : Results × ContentMap) (src : String) :
    processSingleScript h b demoPatterns st ⟨src, demoSecret⟩ =
      (updateCategory st.1 "Potential Secrets" (fun fm =>
         mapInsertOcc fm demoSecret
           ⟨src, some "frameio-api-token", 0, demoSecret.length⟩),
       setContent st.2 src demoSecret) := by
  have hne : ¬(demoSecret = []) := by decide
  have hreg : demoOverlayRule.regex = some (literalMatches demoSecret) := rfl
  simp only [processSingleScript, if_neg hne, demo_decode, applyRulesToCode, demoPatterns,
    List.foldl_cons, List.foldl_nil, hreg, demo_matches, demo_processMatch]

/-- C3 counterexample: the passive scan (`runPassiveScan`, background.js lines
426-452) keeps a flat `findings` array with no by-value grouping: scanning two
sources that both contain the same literal secret pushes two separate finding
records for that value, not one finding carrying two occurrences. -/
theorem C3_counterexample :
    (runPassiveScanFindings demoSources [demoPassiveRule]).1 =
      [⟨"frameio-api-token", demoSecret, "Inline Script #1", false⟩,
       ⟨"frameio-api-token", demoSecret, "Inline Script #2", false⟩] ∧
    (runPassiveScanFindings demoSources [demoPassiveRule]).1.length ≠ 1 := by
  refine ⟨by decide, by decide⟩

/-- C3 (amended): the on-demand scan engine deduplicates by exact trimmed
value within a category — its per-category findings maps never hold two
entries for the same value, and scanning two sources that both contain the
same literal secret yields exactly one entry for that value carrying two
occurrences, one per source.  The passive background scan instead records one
flat entry per match (see the counterexample). -/
theorem C3_deduplication :
    (∀ (hostname : List Char) (patterns : Patterns) (scripts : List ContentScript),
       keysNodup (processScripts hostname patterns scripts).1) ∧
    processScripts "example.com".data demoPatterns demoScripts =
      ([("Potential Secrets",
         [(demoSecret,
           [⟨"Inline Script #1", some "frameio-api-token", 0, demoSecret.length⟩,
            ⟨"Inline Script #2", some "frameio-api-token", 0, demoSecret.length⟩])])],
       [("Inline Script #1", demoSecret), ("Inline Script #2", demoSecret)]) := by
  refine ⟨processScripts_keysNodup, ?_⟩
  simp only [processScripts, getDomainInfo, demoScripts, List.foldl_cons, List.foldl_nil,
    demo_step]
  decide

/-- Witness for C3: the deduplication invariant evaluated at a concrete
engine run. -/
theorem C3_deduplication_witness :
    ((("Potential Secrets", ([] : FindingsMap)) : String × FindingsMap).2.map
      Prod.fst).Nodup :=
  C3_deduplication.1 "example.com".data demoPatterns []
    ("Potential Secrets", ([] : FindingsMap)) (by decide)

/-- Witness for C9 at concrete size estimators and storage primitives. -/
theorem C9_quota_fallback_witness :
    setCachedResults (fun _ => MAX_CACHE_SIZE_BYTES + 1) (fun _ => none)
        [] [("a", ['x'])] 5 =
      { attempts := [DataToCache.mk [] [] 5], logged := none } ∧
    persistPassiveResult
        (fun e => if e.contentMap.isEmpty then none else some "Quota exceeded")
        [] [("a", ['x'])] =
      { attempts := [SessionEntry.mk "complete" [] [("a", ['x'])],
                     SessionEntry.mk "complete" [] []],
        thrown := none } := by
  constructor
  · exact C9_quota_fallback.1 (fun _ => MAX_CACHE_SIZE_BYTES + 1) (fun _ => none)
      [] [("a", ['x'])] 5 (by decide)
  · exact (C9_quota_fallback.2.2
      (fun e => if e.contentMap.isEmpty then none else some "Quota exceeded")
      [] [("a", ['x'])] "Quota exceeded" (by decide) (by decide)).trans (by decide)

end JSRecon
